import Mathlib

/-!
Verification of the STM32F103 OLED display driver (src/hardware/OLED.c,
src/hardware/OLED.h).  The C sources are shallowly embedded: the page-organized
frame buffers become functions from page and column indices to byte values
(kept below 256 by the well-formedness predicate GRAM.Wf and by reducing every
stored byte modulo 256, mirroring the uint8_t stores of the C code), drawing
primitives become pure functions on that representation, and the DMA transfer
machinery becomes an explicit state machine whose transport interactions are
recorded as event lists.  C integer arithmetic on int16_t values is embedded
as Int with truncating division Int.tdiv and remainder Int.tmod where the C
code divides possibly negative quantities.
-/

/-- Screen width in pixels (OLED.h, OLED_WIDTH). -/
def OLED_WIDTH : Nat := 128

/-- Screen height in pixels (OLED.h, OLED_HEIGHT). -/
def OLED_HEIGHT : Nat := 64

/-- Number of 8-pixel-tall pages (OLED.h, OLED_PAGE_COUNT). -/
def OLED_PAGE_COUNT : Nat := 8

/-- Number of columns (OLED.h, OLED_COLUMN_COUNT). -/
def OLED_COLUMN_COUNT : Nat := 128

/-- A frame buffer: a byte for every (page, column) pair.  This embeds the C
arrays uint8_t[OLED_PAGE_COUNT][OLED_COLUMN_COUNT]; only indices with
page < 8 and column < 128 correspond to real storage. -/
def GRAM : Type := Nat → Nat → Nat

/-- The all-zero frame buffer (the initial contents of OLED_GRAM1/OLED_GRAM2). -/
def zeroGRAM : GRAM := fun _ _ => 0

/-- Store byte b at (page p, column c), leaving every other cell unchanged. -/
def setByte (g : GRAM) (p c b : Nat) : GRAM :=
  fun p' c' => if p' = p ∧ c' = c then b else g p' c'

/-- Well-formedness: every cell holds a byte value, as the uint8_t C arrays do. -/
def GRAM.Wf (g : GRAM) : Prop := ∀ p c, g p c < 256

/-- Read pixel (x, y) of a buffer through the page/bit formula of the data
model: bit (y mod 8) of the byte at page y / 8, column x. -/
def readBit (g : GRAM) (x y : Nat) : Bool := Nat.testBit (g (y / 8) x) (y % 8)

/-- The coordinate guard of the macro OLED_CHECK_COORDINATES (OLED.h lines
40-44): a coordinate pair is rejected when x < 0, x >= 128, y < 0 or y >= 64. -/
def coordsRejected (x y : Int) : Prop := x < 0 ∨ 128 ≤ x ∨ y < 0 ∨ 64 ≤ y

instance (x y : Int) : Decidable (coordsRejected x y) := by
  unfold coordsRejected; infer_instance

/-- OLED_DrawPoint (OLED.c lines 1672-1683).  After the coordinate guard, for
Color = OLED_COLOR_WHITE (1) the bit 1 << (Y % 8) of byte [Y / 8][X] is OR-ed
in; otherwise it is cleared with the mask ~(1 << (Y % 8)), truncated to a
byte store.  In range, Y and X are non-negative, so C division and modulo
agree with Nat division on Y.toNat. -/
def OLED_DrawPoint (X Y : Int) (Color : Nat) (g : GRAM) : GRAM :=
  if coordsRejected X Y then g
  else
    let p := Y.toNat / 8
    let c := X.toNat
    let bit := Y.toNat % 8
    if Color = 1 then
      setByte g p c ((g p c ||| (1 <<< bit)) % 256)
    else
      setByte g p c ((g p c &&& (255 ^^^ (1 <<< bit))) % 256)

theorem setByte_same (g : GRAM) (p c b : Nat) : setByte g p c b p c = b := by
  simp [setByte]

theorem setByte_other (g : GRAM) (p c b p' c' : Nat) (h : ¬(p' = p ∧ c' = c)) :
    setByte g p c b p' c' = g p' c' := by
  simp [setByte, h]

theorem testBit_mask255 (bit i : Nat) (hb : bit < 8) (hi : i < 8) :
    Nat.testBit (255 ^^^ (1 <<< bit)) i = !(decide (i = bit)) := by
  interval_cases bit <;> interval_cases i <;> decide

theorem or_mask_byte_lt (b bit : Nat) (hb : b < 256) (hbit : bit < 8) :
    b ||| (1 <<< bit) < 256 := by
  have h1 : 1 <<< bit < 2 ^ 8 := by
    rw [Nat.shiftLeft_eq, one_mul]
    have h2 : 2 ^ bit ≤ 2 ^ 7 := Nat.pow_le_pow_right (by norm_num) (by omega)
    calc 2 ^ bit ≤ 2 ^ 7 := h2
      _ < 2 ^ 8 := by norm_num
  have hb8 : b < 2 ^ 8 := by
    calc b < 256 := hb
      _ = 2 ^ 8 := by norm_num
  have h3 : b ||| (1 <<< bit) < 2 ^ 8 := Nat.or_lt_two_pow hb8 h1
  calc b ||| (1 <<< bit) < 2 ^ 8 := h3
    _ = 256 := by norm_num

theorem drawPoint_in_white (X Y : Int) (g : GRAM) (h : ¬ coordsRejected X Y) :
    OLED_DrawPoint X Y 1 g = setByte g (Y.toNat / 8) X.toNat
      ((g (Y.toNat / 8) X.toNat ||| (1 <<< (Y.toNat % 8))) % 256) := by
  simp [OLED_DrawPoint, h]

theorem drawPoint_in_black (X Y : Int) (g : GRAM) (h : ¬ coordsRejected X Y) :
    OLED_DrawPoint X Y 0 g = setByte g (Y.toNat / 8) X.toNat
      ((g (Y.toNat / 8) X.toNat &&& (255 ^^^ (1 <<< (Y.toNat % 8)))) % 256) := by
  simp [OLED_DrawPoint, h]

/-- C3: for every (x, y) with 0 ≤ x < COLUMN_COUNT and 0 ≤ y < 8·PAGE_COUNT,
drawing the point with color WHITE makes bit (y mod 8) of byte [y/8][x] of the
active buffer equal 1, drawing with color BLACK makes it 0, all other bits are
unchanged; for (x, y) outside that range the call leaves the buffer unchanged. -/
theorem C3_drawPoint_spec (X Y : Int) (Color : Nat) (g : GRAM) (hg : GRAM.Wf g) :
    ((0 ≤ X ∧ X < 128 ∧ 0 ≤ Y ∧ Y < 64) →
      readBit (OLED_DrawPoint X Y 1 g) X.toNat Y.toNat = true ∧
      readBit (OLED_DrawPoint X Y 0 g) X.toNat Y.toNat = false ∧
      (∀ x' y' : Nat, x' < 128 → y' < 64 → ¬(x' = X.toNat ∧ y' = Y.toNat) →
        readBit (OLED_DrawPoint X Y 1 g) x' y' = readBit g x' y' ∧
        readBit (OLED_DrawPoint X Y 0 g) x' y' = readBit g x' y')) ∧
    (¬(0 ≤ X ∧ X < 128 ∧ 0 ≤ Y ∧ Y < 64) → OLED_DrawPoint X Y Color g = g) := by
  constructor
  · rintro ⟨hx0, hx1, hy0, hy1⟩
    have hrej : ¬ coordsRejected X Y := by unfold coordsRejected; omega
    have hblt : Y.toNat % 8 < 8 := Nat.mod_lt _ (by norm_num)
    have hbyte : g (Y.toNat / 8) X.toNat < 256 := hg _ _
    have hor : (g (Y.toNat / 8) X.toNat ||| (1 <<< (Y.toNat % 8))) % 256
        = g (Y.toNat / 8) X.toNat ||| (1 <<< (Y.toNat % 8)) :=
      Nat.mod_eq_of_lt (or_mask_byte_lt _ _ hbyte hblt)
    have hand : (g (Y.toNat / 8) X.toNat &&& (255 ^^^ (1 <<< (Y.toNat % 8)))) % 256
        = g (Y.toNat / 8) X.toNat &&& (255 ^^^ (1 <<< (Y.toNat % 8))) :=
      Nat.mod_eq_of_lt (Nat.lt_of_le_of_lt Nat.and_le_left hbyte)
    refine ⟨?_, ?_, ?_⟩
    · rw [readBit, drawPoint_in_white X Y g hrej, setByte_same, hor]
      rw [Nat.testBit_or, Nat.shiftLeft_eq, one_mul, Nat.testBit_two_pow_self]
      simp
    · rw [readBit, drawPoint_in_black X Y g hrej, setByte_same, hand]
      rw [Nat.testBit_and, testBit_mask255 _ _ hblt hblt]
      simp
    · intro x' y' hx' hy' hne
      have hsplit : ¬(y' / 8 = Y.toNat / 8 ∧ x' = X.toNat) ∨
          (y' / 8 = Y.toNat / 8 ∧ x' = X.toNat ∧ y' % 8 ≠ Y.toNat % 8) := by omega
      rcases hsplit with hcase | ⟨hp, hc, hbne⟩
      · simp only [readBit, drawPoint_in_white X Y g hrej,
          drawPoint_in_black X Y g hrej, setByte_other _ _ _ _ _ _ hcase]
        exact ⟨trivial, trivial⟩
      · have hb' : y' % 8 < 8 := Nat.mod_lt _ (by norm_num)
        constructor
        · rw [readBit, readBit, drawPoint_in_white X Y g hrej, hp, hc,
            setByte_same, hor]
          rw [Nat.testBit_or, Nat.shiftLeft_eq, one_mul,
            Nat.testBit_two_pow_of_ne (fun h => hbne (by omega))]
          simp
        · rw [readBit, readBit, drawPoint_in_black X Y g hrej, hp, hc,
            setByte_same, hand]
          rw [Nat.testBit_and, testBit_mask255 _ _ hblt hb']
          simp [hbne]
  · intro hout
    have hrej : coordsRejected X Y := by unfold coordsRejected; omega
    simp [OLED_DrawPoint, if_pos hrej]

/-- Witness for C3 at the concrete in-range point (5, 11) and the concrete
out-of-range point (128, 0) on the zero buffer. -/
theorem C3_drawPoint_spec_witness :
    readBit (OLED_DrawPoint 5 11 1 zeroGRAM) 5 11 = true ∧
    OLED_DrawPoint 128 0 1 zeroGRAM = zeroGRAM := by
  have hwf : GRAM.Wf zeroGRAM := fun _ _ => by norm_num [zeroGRAM]
  constructor
  · exact ((C3_drawPoint_spec 5 11 1 zeroGRAM hwf).1 (by norm_num)).1
  · exact (C3_drawPoint_spec 128 0 1 zeroGRAM hwf).2 (by norm_num)

/-- The inner loop of OLED_Reverse (OLED.c lines 935-946) on one page: every
column byte of page p is XOR-ed with 0xFF (stored back as a byte). -/
def reverseRow (p : Nat) (g : GRAM) : GRAM :=
  (List.range OLED_COLUMN_COUNT).foldl
    (fun a c => setByte a p c ((a p c ^^^ 255) % 256)) g

/-- OLED_Reverse (OLED.c lines 935-946): XOR every byte of every page of the
active buffer with 0xFF. -/
def OLED_Reverse (g : GRAM) : GRAM :=
  (List.range OLED_PAGE_COUNT).foldl (fun a p => reverseRow p a) g

theorem rowFoldAux (p n : Nat) (g : GRAM) (p' c' : Nat) :
    ((List.range n).foldl (fun a c => setByte a p c ((a p c ^^^ 255) % 256)) g) p' c'
      = if p' = p ∧ c' < n then (g p' c' ^^^ 255) % 256 else g p' c' := by
  induction n generalizing p' c' with
  | zero => simp
  | succ n ih =>
    rw [List.range_succ, List.foldl_append]
    simp only [List.foldl_cons, List.foldl_nil]
    simp only [setByte, ih]
    by_cases h1 : p' = p ∧ c' = n
    · obtain ⟨hp, hc⟩ := h1
      subst hp; subst hc
      simp
    · rw [if_neg h1]
      by_cases h2 : p' = p ∧ c' < n
      · rw [if_pos h2, if_pos (show p' = p ∧ c' < n + 1 by omega)]
      · rw [if_neg h2, if_neg (show ¬(p' = p ∧ c' < n + 1) by omega)]

theorem reverseRow_apply (p : Nat) (g : GRAM) (p' c' : Nat) :
    reverseRow p g p' c' = if p' = p ∧ c' < 128 then (g p' c' ^^^ 255) % 256 else g p' c' :=
  rowFoldAux p 128 g p' c'

theorem pageFoldAux (n : Nat) (g : GRAM) (p' c' : Nat) :
    ((List.range n).foldl (fun a p => reverseRow p a) g) p' c'
      = if p' < n ∧ c' < 128 then (g p' c' ^^^ 255) % 256 else g p' c' := by
  induction n generalizing p' c' with
  | zero => simp
  | succ n ih =>
    rw [List.range_succ, List.foldl_append]
    simp only [List.foldl_cons, List.foldl_nil]
    rw [reverseRow_apply]
    simp only [ih]
    by_cases h1 : p' = n ∧ c' < 128
    · obtain ⟨hp, hc⟩ := h1
      subst hp
      rw [if_pos ⟨rfl, hc⟩, if_neg (show ¬(p' < p' ∧ c' < 128) by omega),
        if_pos (show p' < p' + 1 ∧ c' < 128 by omega)]
    · rw [if_neg h1]
      by_cases h2 : p' < n ∧ c' < 128
      · rw [if_pos h2, if_pos (show p' < n + 1 ∧ c' < 128 by omega)]
      · rw [if_neg h2, if_neg (show ¬(p' < n + 1 ∧ c' < 128) by omega)]

theorem reverse_apply (g : GRAM) (p' c' : Nat) :
    OLED_Reverse g p' c' = if p' < 8 ∧ c' < 128 then (g p' c' ^^^ 255) % 256 else g p' c' :=
  pageFoldAux 8 g p' c'

/-- C6: applying the full-frame invert operation twice returns any well-formed
buffer (every cell a byte value, as in the C arrays) to exactly its original
contents, bit for bit. -/
theorem C6_reverse_involutive (g : GRAM) (hg : GRAM.Wf g) :
    OLED_Reverse (OLED_Reverse g) = g := by
  funext p c
  simp only [reverse_apply]
  by_cases h : p < 8 ∧ c < 128
  · simp only [if_pos h]
    have hb : g p c < 256 := hg p c
    have hb8 : g p c < 2 ^ 8 := by
      calc g p c < 256 := hb
        _ = 2 ^ 8 := by norm_num
    have h255 : (255 : Nat) < 2 ^ 8 := by norm_num
    have hx : g p c ^^^ 255 < 256 := by
      have := Nat.xor_lt_two_pow hb8 h255
      calc g p c ^^^ 255 < 2 ^ 8 := this
        _ = 256 := by norm_num
    rw [Nat.mod_eq_of_lt hx, Nat.xor_cancel_right, Nat.mod_eq_of_lt hb]
  · simp only [if_neg h]

/-- Witness for C6 at a concrete buffer: the zero buffer with one byte set. -/
theorem C6_reverse_involutive_witness :
    OLED_Reverse (OLED_Reverse (setByte zeroGRAM 3 7 170)) = setByte zeroGRAM 3 7 170 :=
  C6_reverse_involutive _ (fun p c => by
    simp only [setByte, zeroGRAM]
    split_ifs <;> norm_num)

/-- The list of Int loop values x, x + 1, ..., covering n iterations, used to
embed C for-loops over int16_t counters. -/
def intRange (a : Int) (n : Nat) : List Int := (List.range n).map (fun (i : Nat) => a + (i : Int))

/-- The four-way transformed plot of OLED_DrawLine (OLED.c lines 1827-1830 and
1846-1849): undo the octant normalization before plotting, always with
color 1. -/
def plotT (x y : Int) (yflag xyflag : Bool) (g : GRAM) : GRAM :=
  if yflag && xyflag then OLED_DrawPoint y (-x) 1 g
  else if yflag then OLED_DrawPoint x (-y) 1 g
  else if xyflag then OLED_DrawPoint y x 1 g
  else OLED_DrawPoint x y 1 g

/-- The Bresenham while-loop of OLED_DrawLine (OLED.c lines 1832-1850): while
x < x1, increment x, move east (d < 0) or north-east, then plot the
transformed point.  Fuel bounds the iteration count; the caller passes
(x1 - x0).toNat, which is exactly the number of iterations since x increases
by one per step until x = x1. -/
def bresLoop : Nat → Int → Int → Int → Int → Int → Int → Bool → Bool → GRAM → GRAM
  | 0, _, _, _, _, _, _, _, _, g => g
  | f + 1, x, y, x1, d, incrE, incrNE, yflag, xyflag, g =>
    if x < x1 then
      if d < 0 then
        bresLoop f (x + 1) y x1 (d + incrE) incrE incrNE yflag xyflag
          (plotT (x + 1) y yflag xyflag g)
      else
        bresLoop f (x + 1) (y + 1) x1 (d + incrNE) incrE incrNE yflag xyflag
          (plotT (x + 1) (y + 1) yflag xyflag g)
    else g

/-- OLED_DrawLine (OLED.c lines 1748-1852).  Both endpoints pass through
OLED_CHECK_COORDINATES; horizontal and vertical lines are filled directly
between the ordered endpoints; the general case normalizes to the first
octant (endpoint swap, Y negation, X/Y exchange) and runs integer Bresenham.
Every plotted point is drawn with the constant color 1; the Color parameter
is never read, exactly as in the C source. -/
def OLED_DrawLine (X0 Y0 X1 Y1 : Int) (Color : Nat) (g : GRAM) : GRAM :=
  if coordsRejected X0 Y0 then g
  else if coordsRejected X1 Y1 then g
  else if Y0 = Y1 then
    let a := if X1 < X0 then X1 else X0
    let b := if X1 < X0 then X0 else X1
    (intRange a (b - a + 1).toNat).foldl (fun acc x => OLED_DrawPoint x Y0 1 acc) g
  else if X0 = X1 then
    let a := if Y1 < Y0 then Y1 else Y0
    let b := if Y1 < Y0 then Y0 else Y1
    (intRange a (b - a + 1).toNat).foldl (fun acc y => OLED_DrawPoint X0 y 1 acc) g
  else
    let x0 := if X1 < X0 then X1 else X0
    let y0a := if X1 < X0 then Y1 else Y0
    let x1 := if X1 < X0 then X0 else X1
    let y1a := if X1 < X0 then Y0 else Y1
    let yflag := decide (y1a < y0a)
    let y0 := if yflag then -y0a else y0a
    let y1 := if yflag then -y1a else y1a
    let xyflag := decide (x1 - x0 < y1 - y0)
    let x0' := if xyflag then y0 else x0
    let y0' := if xyflag then x0 else y0
    let x1' := if xyflag then y1 else x1
    let y1' := if xyflag then x1 else y1
    let dx := x1' - x0'
    let dy := y1' - y0'
    let incrE := 2 * dy
    let incrNE := 2 * (dy - dx)
    let d := 2 * dy - dx
    let g1 := plotT x0' y0' yflag xyflag g
    bresLoop dx.toNat x0' y0' x1' d incrE incrNE yflag xyflag g1

theorem drawPoint_in_nonwhite (X Y : Int) (C : Nat) (g : GRAM)
    (h : ¬ coordsRejected X Y) (hc : C ≠ 1) :
    OLED_DrawPoint X Y C g = setByte g (Y.toNat / 8) X.toNat
      ((g (Y.toNat / 8) X.toNat &&& (255 ^^^ (1 <<< (Y.toNat % 8)))) % 256) := by
  simp [OLED_DrawPoint, h, hc]

theorem setByte_mod_wf (g : GRAM) (p c v : Nat) (hg : GRAM.Wf g) :
    GRAM.Wf (setByte g p c (v % 256)) := by
  intro p' c'
  unfold setByte
  split_ifs
  · exact Nat.mod_lt _ (by norm_num)
  · exact hg p' c'

theorem drawPoint_wf (X Y : Int) (C : Nat) (g : GRAM) (hg : GRAM.Wf g) :
    GRAM.Wf (OLED_DrawPoint X Y C g) := by
  by_cases hrej : coordsRejected X Y
  · simpa [OLED_DrawPoint, hrej] using hg
  · by_cases hc : C = 1
    · subst hc
      rw [drawPoint_in_white X Y g hrej]
      exact setByte_mod_wf _ _ _ _ hg
    · rw [drawPoint_in_nonwhite X Y C g hrej hc]
      exact setByte_mod_wf _ _ _ _ hg

theorem drawPoint_white_mono (X Y : Int) (g : GRAM) (hg : GRAM.Wf g) (x y : Nat)
    (h : readBit g x y = true) : readBit (OLED_DrawPoint X Y 1 g) x y = true := by
  by_cases hrej : coordsRejected X Y
  · simpa [OLED_DrawPoint, hrej] using h
  · rw [drawPoint_in_white X Y g hrej]
    by_cases hsame : y / 8 = Y.toNat / 8 ∧ x = X.toNat
    · have hbyte : g (Y.toNat / 8) X.toNat < 256 := hg _ _
      have hblt : Y.toNat % 8 < 8 := Nat.mod_lt _ (by norm_num)
      rw [readBit, hsame.1, hsame.2, setByte_same,
        Nat.mod_eq_of_lt (or_mask_byte_lt _ _ hbyte hblt), Nat.testBit_or]
      rw [readBit, hsame.1, hsame.2] at h
      simp [h]
    · rwa [readBit, setByte_other _ _ _ _ _ _ hsame]

/-- A fold of white plots preserves well-formedness and never clears a bit. -/
theorem foldl_plot_mono (f : GRAM → Int → GRAM)
    (hf : ∀ g t, GRAM.Wf g → GRAM.Wf (f g t) ∧
      (∀ x y, readBit g x y = true → readBit (f g t) x y = true)) :
    ∀ (l : List Int) (g : GRAM), GRAM.Wf g → GRAM.Wf (l.foldl f g) ∧
      (∀ x y, readBit g x y = true → readBit (l.foldl f g) x y = true) := by
  intro l
  induction l with
  | nil => intro g hg; exact ⟨hg, fun _ _ h => h⟩
  | cons t rest ih =>
    intro g hg
    obtain ⟨hw, hm⟩ := hf g t hg
    obtain ⟨hw2, hm2⟩ := ih (f g t) hw
    exact ⟨hw2, fun x y h => hm2 x y (hm x y h)⟩

theorem plotT_wf_mono (px py : Int) (yflag xyflag : Bool) (g : GRAM)
    (hg : GRAM.Wf g) : GRAM.Wf (plotT px py yflag xyflag g) ∧
      (∀ x y, readBit g x y = true → readBit (plotT px py yflag xyflag g) x y = true) := by
  unfold plotT
  split_ifs <;>
    exact ⟨drawPoint_wf _ _ _ _ hg, fun x y h => drawPoint_white_mono _ _ _ hg x y h⟩

theorem bresLoop_wf_mono (f : Nat) :
    ∀ (x y x1 d iE iNE : Int) (yflag xyflag : Bool) (g : GRAM), GRAM.Wf g →
      GRAM.Wf (bresLoop f x y x1 d iE iNE yflag xyflag g) ∧
      (∀ a b, readBit g a b = true →
        readBit (bresLoop f x y x1 d iE iNE yflag xyflag g) a b = true) := by
  induction f with
  | zero => intro x y x1 d iE iNE yflag xyflag g hg; exact ⟨hg, fun _ _ h => h⟩
  | succ f ih =>
    intro x y x1 d iE iNE yflag xyflag g hg
    unfold bresLoop
    split_ifs with h1 h2
    · obtain ⟨hw, hm⟩ := plotT_wf_mono (x + 1) y yflag xyflag g hg
      obtain ⟨hw2, hm2⟩ := ih (x + 1) y x1 (d + iE) iE iNE yflag xyflag _ hw
      exact ⟨hw2, fun a b h => hm2 a b (hm a b h)⟩
    · obtain ⟨hw, hm⟩ := plotT_wf_mono (x + 1) (y + 1) yflag xyflag g hg
      obtain ⟨hw2, hm2⟩ := ih (x + 1) (y + 1) x1 (d + iNE) iE iNE yflag xyflag _ hw
      exact ⟨hw2, fun a b h => hm2 a b (hm a b h)⟩
    · exact ⟨hg, fun _ _ h => h⟩

/-- C9: the line draw operation ignores its Color argument - for every pair of
endpoints and every Color value the result equals the call with any other
Color - and every bit it touches is set, never cleared: on a well-formed
buffer a bit that is set stays set through any line draw. -/
theorem C9_line_ignores_color (X0 Y0 X1 Y1 : Int) (c c' : Nat) (g : GRAM) :
    OLED_DrawLine X0 Y0 X1 Y1 c g = OLED_DrawLine X0 Y0 X1 Y1 c' g ∧
    (GRAM.Wf g → ∀ x y, readBit g x y = true →
      readBit (OLED_DrawLine X0 Y0 X1 Y1 c g) x y = true) := by
  constructor
  · rfl
  · intro hg x y h
    by_cases h1 : coordsRejected X0 Y0
    · simpa [OLED_DrawLine, h1] using h
    · by_cases h2 : coordsRejected X1 Y1
      · simpa [OLED_DrawLine, h1, h2] using h
      · by_cases h3 : Y0 = Y1
        · simp only [OLED_DrawLine, if_neg h1, if_neg h2, if_pos h3]
          exact (foldl_plot_mono _
            (fun g t hgt => ⟨drawPoint_wf _ _ _ _ hgt,
              fun a b hb => drawPoint_white_mono _ _ _ hgt a b hb⟩) _ g hg).2 x y h
        · by_cases h4 : X0 = X1
          · simp only [OLED_DrawLine, if_neg h1, if_neg h2, if_neg h3, if_pos h4]
            exact (foldl_plot_mono _
              (fun g t hgt => ⟨drawPoint_wf _ _ _ _ hgt,
                fun a b hb => drawPoint_white_mono _ _ _ hgt a b hb⟩) _ g hg).2 x y h
          · simp only [OLED_DrawLine, if_neg h1, if_neg h2, if_neg h3, if_neg h4]
            exact (bresLoop_wf_mono _ _ _ _ _ _ _ _ _ _
                (plotT_wf_mono _ _ _ _ g hg).1).2 x y
              ((plotT_wf_mono _ _ _ _ g hg).2 x y h)

/-- Witness for C9: a diagonal line drawn with color BLACK (0) equals the same
line drawn with WHITE (1), and it does not clear the already-set pixel (0,0)
of a buffer where that pixel is set. -/
theorem C9_line_ignores_color_witness :
    OLED_DrawLine 2 3 40 20 0 zeroGRAM = OLED_DrawLine 2 3 40 20 1 zeroGRAM ∧
    readBit (OLED_DrawLine 2 3 40 20 0 (setByte zeroGRAM 0 0 1)) 0 0 = true := by
  have hwf : GRAM.Wf (setByte zeroGRAM 0 0 1) := fun p c => by
    simp only [setByte, zeroGRAM]
    split_ifs <;> norm_num
  constructor
  · exact (C9_line_ignores_color 2 3 40 20 0 1 zeroGRAM).1
  · exact (C9_line_ignores_color 2 3 40 20 0 0 (setByte zeroGRAM 0 0 1)).2 hwf 0 0 (by decide)

/-- C10: if either endpoint of a line draw call is outside the logical screen,
the whole call leaves the buffer unchanged - no clipping is performed. -/
theorem C10_line_oob_noop (X0 Y0 X1 Y1 : Int) (c : Nat) (g : GRAM)
    (h : coordsRejected X0 Y0 ∨ coordsRejected X1 Y1) :
    OLED_DrawLine X0 Y0 X1 Y1 c g = g := by
  unfold OLED_DrawLine
  by_cases h1 : coordsRejected X0 Y0
  · rw [if_pos h1]
  · rw [if_neg h1, if_pos (h.resolve_left h1)]

/-- Witness for C10 at a segment from (-1, 0) to (10, 0) whose portion with
x in 0..10 lies on-screen: the call is still a complete no-op. -/
theorem C10_line_oob_noop_witness :
    OLED_DrawLine (-1) 0 10 0 1 zeroGRAM = zeroGRAM :=
  C10_line_oob_noop (-1) 0 10 0 1 zeroGRAM (Or.inl (by decide))

/-- The rectangle guard of the macro OLED_CHECK_RECTANGLE (OLED.h lines 46-50):
return when width or height is zero, or x >= 128, or y >= 64.  Negative x/y
pass the guard. -/
def rectRejected (x y w h : Int) : Prop := w = 0 ∨ h = 0 ∨ 128 ≤ x ∨ 64 ≤ y

instance (x y w h : Int) : Decidable (rectRejected x y w h) := by
  unfold rectRejected; infer_instance

/-- The coordinate normalization of OLED_DrawRectangle (OLED.c lines 1878-1884):
if v >= m, v %= m (dead after the guard, kept verbatim); if v < 0,
v = m + (v % m), with C truncating remainder Int.tmod. -/
def wrapCoord (v m : Int) : Int :=
  let v1 := if m ≤ v then Int.tmod v m else v
  if v1 < 0 then m + Int.tmod v1 m else v1

/-- The drawing body of OLED_DrawRectangle (OLED.c lines 1886-1915) after
coordinate normalization: unfilled draws the two horizontal edges (plot
columns i % 128 at rows Y and (Y+H-1) % 64) then the two vertical edges;
filled plots every (i % 128, j % 64).  All plots use color 1.  The uint8_t
loop counters i, j are non-negative, so their C remainder agrees with the
Euclidean % used here; the border expressions (Y+H-1) % 64 and
(X+W-1) % 128 are signed int arithmetic and use C's truncating remainder
Int.tmod (negative for guard-passing negative Height/Width, where the
resulting coordinate is rejected by OLED_DrawPoint as in C).  The value
lists intRange cover Width (resp. Height) iterations as in the source for
the documented parameter ranges. -/
def rectBody (X2 Y2 W H : Int) (isFilled : Bool) (g : GRAM) : GRAM :=
  if isFilled then
    (intRange X2 W.toNat).foldl (fun a i =>
      (intRange Y2 H.toNat).foldl (fun b j =>
        OLED_DrawPoint (i % 128) (j % 64) 1 b) a) g
  else
    let g1 := (intRange X2 W.toNat).foldl (fun a i =>
      OLED_DrawPoint (i % 128) (Int.tmod (Y2 + H - 1) 64) 1
        (OLED_DrawPoint (i % 128) Y2 1 a)) g
    (intRange Y2 H.toNat).foldl (fun a i =>
      OLED_DrawPoint (Int.tmod (X2 + W - 1) 128) (i % 64) 1
        (OLED_DrawPoint X2 (i % 64) 1 a)) g1

/-- OLED_DrawRectangle (OLED.c lines 1873-1916): guard, coordinate wrap,
then the drawing body. -/
def OLED_DrawRectangle (X Y W H : Int) (isFilled : Bool) (g : GRAM) : GRAM :=
  if rectRejected X Y W H then g
  else rectBody (wrapCoord X 128) (wrapCoord Y 64) W H isFilled g

theorem tmod_small_neg (X m : Int) (hm : 0 < m) (h1 : -m < X) (h2 : X < 0) :
    Int.tmod X m = X := by
  have hz : Int.tdiv X m = 0 := by
    have hz2 : Int.tdiv (-X) m = 0 := Int.tdiv_eq_zero_of_lt (by omega) (by omega)
    have h3 := Int.neg_tdiv X m
    omega
  rw [Int.tmod_def, hz]
  ring

theorem wrapCoord_neg (X m : Int) (hm : 0 < m) (h1 : -m < X) (h2 : X < 0) :
    wrapCoord X m = wrapCoord (X + m) m := by
  unfold wrapCoord
  rw [if_neg (show ¬ m ≤ X by omega), if_pos h2, tmod_small_neg X m hm h1 h2,
    if_neg (show ¬ m ≤ X + m by omega), if_neg (show ¬ X + m < 0 by omega)]
  ring

theorem wrapCoord_id (v m : Int) (h0 : 0 ≤ v) (h1 : v < m) : wrapCoord v m = v := by
  unfold wrapCoord
  rw [if_neg (show ¬ m ≤ v by omega), if_neg (show ¬ v < 0 by omega)]

theorem drawPoint_white_sets (X Y : Int) (g : GRAM) (hg : GRAM.Wf g)
    (hx : 0 ≤ X) (hx2 : X < 128) (hy : 0 ≤ Y) (hy2 : Y < 64) :
    readBit (OLED_DrawPoint X Y 1 g) X.toNat Y.toNat = true := by
  have hrej : ¬ coordsRejected X Y := by unfold coordsRejected; omega
  have hblt : Y.toNat % 8 < 8 := Nat.mod_lt _ (by norm_num)
  have hbyte : g (Y.toNat / 8) X.toNat < 256 := hg _ _
  rw [readBit, drawPoint_in_white X Y g hrej, setByte_same,
    Nat.mod_eq_of_lt (or_mask_byte_lt _ _ hbyte hblt), Nat.testBit_or,
    Nat.shiftLeft_eq, one_mul, Nat.testBit_two_pow_self]
  simp

/-- A fold over a list of plotting steps sets, in the final buffer, the
per-element target pixel of every element of the list, provided each step
preserves well-formedness, never clears a bit, and sets its own target. -/
theorem foldl_sets_point (F : GRAM → Int → GRAM) (tx ty : Int → Nat)
    (hwf : ∀ g i, GRAM.Wf g → GRAM.Wf (F g i))
    (hmono : ∀ g i x y, GRAM.Wf g → readBit g x y = true → readBit (F g i) x y = true)
    (hsets : ∀ g i, GRAM.Wf g → readBit (F g i) (tx i) (ty i) = true) :
    ∀ (l : List Int) (g : GRAM), GRAM.Wf g →
      ∀ i ∈ l, readBit (l.foldl F g) (tx i) (ty i) = true := by
  intro l
  induction l with
  | nil => intro g hg i hi; exact absurd hi (List.not_mem_nil i)
  | cons j rest ih =>
    intro g hg i hi
    rcases List.mem_cons.mp hi with rfl | hi2
    · simp only [List.foldl_cons]
      exact (foldl_plot_mono F
        (fun a t ha => ⟨hwf a t ha, fun x y hb => hmono a t x y ha hb⟩)
        rest (F g i) (hwf g i hg)).2 _ _ (hsets g i hg)
    · simp only [List.foldl_cons]
      exact ih (F g j) (hwf g j hg) i hi2

theorem rectBody_unfilled (X2 Y2 W H : Int) (g : GRAM) :
    rectBody X2 Y2 W H false g
      = (intRange Y2 H.toNat).foldl (fun a i =>
          OLED_DrawPoint (Int.tmod (X2 + W - 1) 128) (i % 64) 1
            (OLED_DrawPoint X2 (i % 64) 1 a))
        ((intRange X2 W.toNat).foldl (fun a i =>
          OLED_DrawPoint (i % 128) (Int.tmod (Y2 + H - 1) 64) 1
            (OLED_DrawPoint (i % 128) Y2 1 a)) g) := rfl

/-- C5 counterexample: the claim says X-coordinates wrap modulo 128 for every
X including X ≥ 128, so a rectangle at X = 128 would have to be drawn like
one at X = 0.  In fact the call at X = 128 leaves the buffer untouched while
the call at X = 0 sets pixel (0, 0). -/
theorem C5_rect_wrap_counterexample :
    OLED_DrawRectangle 128 0 10 10 false zeroGRAM = zeroGRAM ∧
    readBit (OLED_DrawRectangle 0 0 10 10 false zeroGRAM) 0 0 = true := by
  constructor
  · unfold OLED_DrawRectangle
    rw [if_pos (by decide)]
  · decide

/-- C5 amended: coordinates wrap only when negative - a call with
-128 < X < 0 draws exactly like the call at X + 128 (similarly -64 < Y < 0
and Y + 64) - while a call with X ≥ 128 or Y ≥ 64 is rejected by
OLED_CHECK_RECTANGLE and leaves the buffer unchanged; and drawn pixels are
reduced mod 128/64: for an in-range anchor, every top-border pixel of an
unfilled rectangle lands at column (X+k) mod 128 and every bottom-border
pixel at row (Y+H-1) mod 64, so a box overhanging the right or bottom edge
reappears on the opposite side. -/
theorem C5_rect_wrap_amended (X Y W H : Int) (isFilled : Bool) (g : GRAM) :
    (128 ≤ X → OLED_DrawRectangle X Y W H isFilled g = g) ∧
    (64 ≤ Y → OLED_DrawRectangle X Y W H isFilled g = g) ∧
    (-128 < X → X < 0 →
      OLED_DrawRectangle X Y W H isFilled g
        = OLED_DrawRectangle (X + 128) Y W H isFilled g) ∧
    (-64 < Y → Y < 0 →
      OLED_DrawRectangle X Y W H isFilled g
        = OLED_DrawRectangle X (Y + 64) W H isFilled g) ∧
    (GRAM.Wf g → 0 ≤ X → X < 128 → 0 ≤ Y → Y < 64 →
      1 ≤ W → W ≤ 128 → 1 ≤ H → H ≤ 64 →
      ∀ k : Nat, (k : Int) < W →
        readBit (OLED_DrawRectangle X Y W H false g)
          ((X + (k : Int)).toNat % 128) Y.toNat = true ∧
        readBit (OLED_DrawRectangle X Y W H false g)
          ((X + (k : Int)).toNat % 128) ((Y + H - 1).toNat % 64) = true) := by
  refine ⟨?_, ?_, ?_, ?_, ?_⟩
  · intro hx
    unfold OLED_DrawRectangle
    rw [if_pos (show rectRejected X Y W H from Or.inr (Or.inr (Or.inl hx)))]
  · intro hy
    unfold OLED_DrawRectangle
    rw [if_pos (show rectRejected X Y W H from Or.inr (Or.inr (Or.inr hy)))]
  · intro h1 h2
    unfold OLED_DrawRectangle
    have hiff : rectRejected X Y W H ↔ rectRejected (X + 128) Y W H := by
      unfold rectRejected; omega
    by_cases hr : rectRejected X Y W H
    · rw [if_pos hr, if_pos (hiff.mp hr)]
    · rw [if_neg hr, if_neg (fun hc => hr (hiff.mpr hc)),
        wrapCoord_neg X 128 (by norm_num) h1 h2]
  · intro h1 h2
    unfold OLED_DrawRectangle
    have hiff : rectRejected X Y W H ↔ rectRejected X (Y + 64) W H := by
      unfold rectRejected; omega
    by_cases hr : rectRejected X Y W H
    · rw [if_pos hr, if_pos (hiff.mp hr)]
    · rw [if_neg hr, if_neg (fun hc => hr (hiff.mpr hc)),
        wrapCoord_neg Y 64 (by norm_num) h1 h2]
  · intro hg hx0 hx1 hy0 hy1 hw1 hw2 hh1 hh2 k hk
    have hguard : ¬ rectRejected X Y W H := by unfold rectRejected; omega
    have hrow0 : 0 ≤ Int.tmod (Y + H - 1) 64 ∧ Int.tmod (Y + H - 1) 64 < 64 := by
      rw [Int.tmod_eq_emod (by omega) (by norm_num)]
      exact ⟨Int.emod_nonneg _ (by norm_num), Int.emod_lt_of_pos _ (by norm_num)⟩
    have hFwf : ∀ (a : GRAM) (i : Int), GRAM.Wf a →
        GRAM.Wf (OLED_DrawPoint (i % 128) (Int.tmod (Y + H - 1) 64) 1
          (OLED_DrawPoint (i % 128) Y 1 a)) :=
      fun a i ha => drawPoint_wf _ _ _ _ (drawPoint_wf _ _ _ _ ha)
    have hFmono : ∀ (a : GRAM) (i : Int) (x y : Nat), GRAM.Wf a →
        readBit a x y = true →
        readBit (OLED_DrawPoint (i % 128) (Int.tmod (Y + H - 1) 64) 1
          (OLED_DrawPoint (i % 128) Y 1 a)) x y = true :=
      fun a i x y ha hb => drawPoint_white_mono _ _ _ (drawPoint_wf _ _ _ _ ha) x y
        (drawPoint_white_mono _ _ _ ha x y hb)
    have hcol : ∀ i : Int, 0 ≤ i % 128 ∧ i % 128 < 128 :=
      fun i => ⟨Int.emod_nonneg i (by norm_num), Int.emod_lt_of_pos i (by norm_num)⟩
    have hkW : k < W.toNat := by omega
    have hmemk : (X + (k : Int)) ∈ intRange X W.toNat := by
      unfold intRange
      exact List.mem_map_of_mem (fun i : Nat => X + (i : Int)) (List.mem_range.mpr hkW)
    have hg1 := foldl_plot_mono _
      (fun a t ha => ⟨hFwf a t ha, fun x y hb => hFmono a t x y ha hb⟩)
      (intRange X W.toNat) g hg
    have htop := foldl_sets_point _ (fun i => (i % 128).toNat) (fun _ => Y.toNat)
      hFwf hFmono
      (fun a i ha => drawPoint_white_mono _ _ _ (drawPoint_wf _ _ _ _ ha) _ _
        (drawPoint_white_sets (i % 128) Y a ha (hcol i).1 (hcol i).2 hy0 hy1))
      (intRange X W.toNat) g hg (X + (k : Int)) hmemk
    have hbot := foldl_sets_point _ (fun i => (i % 128).toNat)
      (fun _ => (Int.tmod (Y + H - 1) 64).toNat)
      hFwf hFmono
      (fun a i ha => drawPoint_white_sets (i % 128) (Int.tmod (Y + H - 1) 64) _
        (drawPoint_wf _ _ _ _ ha) (hcol i).1 (hcol i).2 hrow0.1 hrow0.2)
      (intRange X W.toNat) g hg (X + (k : Int)) hmemk
    have hvert := foldl_plot_mono
      (fun (a : GRAM) (i : Int) =>
        OLED_DrawPoint (Int.tmod (X + W - 1) 128) (i % 64) 1
          (OLED_DrawPoint X (i % 64) 1 a))
      (fun a t ha => ⟨drawPoint_wf _ _ _ _ (drawPoint_wf _ _ _ _ ha),
        fun x y hb => drawPoint_white_mono _ _ _ (drawPoint_wf _ _ _ _ ha) x y
          (drawPoint_white_mono _ _ _ ha x y hb)⟩)
      (intRange Y H.toNat) _ hg1.1
    have e1 : ((X + (k : Int)) % 128).toNat = (X + (k : Int)).toNat % 128 := by omega
    have e2 : (Int.tmod (Y + H - 1) 64).toNat = (Y + H - 1).toNat % 64 := by
      rw [Int.tmod_eq_emod (by omega) (by norm_num)]
      omega
    unfold OLED_DrawRectangle
    rw [if_neg hguard, wrapCoord_id X 128 hx0 hx1, wrapCoord_id Y 64 hy0 hy1,
      rectBody_unfilled]
    constructor
    · rw [← e1]
      exact hvert.2 _ _ htop
    · rw [← e1, ← e2]
      exact hvert.2 _ _ hbot

/-- Witness for C5 amended at X = 130 (no-op), X = -5 (wraps to 123), and an
unfilled rectangle anchored at (120, 60) of width 20 and height 10, which
overhangs both the right and the bottom edge: its top-border pixel k = 15
lands at column 135 mod 128 = 7, and the matching bottom-border pixel at row
69 mod 64 = 5 - both reappear on the opposite side of the screen. -/
theorem C5_rect_wrap_amended_witness :
    OLED_DrawRectangle 130 0 10 10 false zeroGRAM = zeroGRAM ∧
    OLED_DrawRectangle (-5) 0 10 10 false zeroGRAM
      = OLED_DrawRectangle 123 0 10 10 false zeroGRAM ∧
    readBit (OLED_DrawRectangle 120 60 20 10 false zeroGRAM) 7 60 = true ∧
    readBit (OLED_DrawRectangle 120 60 20 10 false zeroGRAM) 7 5 = true := by
  have hwf : GRAM.Wf zeroGRAM := fun _ _ => by norm_num [zeroGRAM]
  have hover := (C5_rect_wrap_amended 120 60 20 10 false zeroGRAM).2.2.2.2
    hwf (by norm_num) (by norm_num) (by norm_num) (by norm_num)
    (by norm_num) (by norm_num) (by norm_num) (by norm_num) 15 (by norm_num)
  refine ⟨(C5_rect_wrap_amended 130 0 10 10 false zeroGRAM).1 (by norm_num),
    (C5_rect_wrap_amended (-5) 0 10 10 false zeroGRAM).2.2.1
      (by norm_num) (by norm_num), ?_, ?_⟩
  · exact hover.1
  · exact hover.2

/-- The Y update of one Bresenham circle step (OLED.c lines 2126-2134): the
east move keeps y, the south-east move decrements it. -/
def nextY (y d : Int) : Int := if d < 0 then y else y - 1

/-- The decision-variable update of one Bresenham circle step (OLED.c lines
2126-2134), with x already incremented and y already decremented where
applicable. -/
def nextD (x y d : Int) : Int :=
  if d < 0 then d + 2 * (x + 1) + 1 else d + 2 * ((x + 1) - (y - 1)) + 1

/-- The loop values j = a, a + 1, ..., of the fill loops
for (j = -y; j < y; j++): intRange (-y) over (2y) iterations. -/
def spanJ (y : Int) : List Int := intRange (-y) (2 * y).toNat

/-- The eight symmetric boundary points plotted in one loop iteration of
OLED_DrawCircle (OLED.c lines 2137-2144), with the incremented x and the
updated y. -/
def circleStepPts (x y d X Y : Int) : List (Int × Int) :=
  let x' := x + 1
  let y' := nextY y d
  [(X + x', Y + y'), (X + y', Y + x'), (X - x', Y - y'), (X - y', Y - x'),
   (X + x', Y - y'), (X + y', Y - x'), (X - x', Y + y'), (X - y', Y + x')]

/-- The fill points plotted in one loop iteration when IsFilled (OLED.c lines
2146-2163): the central spans at columns X + x' and X - x' over j in [-y', y'),
then the side spans at columns X - y' and X + y' over j in [-x', x'). -/
def circleStepFill (x y d X Y : Int) : List (Int × Int) :=
  let x' := x + 1
  let y' := nextY y d
  ((spanJ y').flatMap (fun j => [(X + x', Y + j), (X - x', Y + j)])) ++
  ((spanJ x').flatMap (fun j => [(X - y', Y + j), (X + y', Y + j)]))

/-- The while-loop of OLED_DrawCircle (OLED.c lines 2123-2164) as the list of
points passed to OLED_DrawPoint, in call order.  Fuel bounds the iterations;
the caller passes Radius.toNat, which suffices since y - x strictly decreases
from Radius each iteration and the loop stops when x < y fails. -/
def circleLoop : Nat → Int → Int → Int → Int → Int → Bool → List (Int × Int)
  | 0, _, _, _, _, _, _ => []
  | f + 1, x, y, d, X, Y, isFilled =>
    if x < y then
      circleStepPts x y d X Y ++
      (if isFilled then circleStepFill x y d X Y else []) ++
      circleLoop f (x + 1) (nextY y d) (nextD x y d) X Y isFilled
    else []

/-- OLED_DrawCircle (OLED.c lines 2093-2165) as the list of points passed to
OLED_DrawPoint (always with color 1), in call order: the four octant start
points at x = 0, y = Radius, the initial fill column when IsFilled, then the
Bresenham loop with d = 1 - Radius. -/
def OLED_DrawCircle_plots (X Y Radius : Int) (isFilled : Bool) : List (Int × Int) :=
  [(X, Y + Radius), (X, Y - Radius), (X + Radius, Y), (X - Radius, Y)] ++
  (if isFilled then (spanJ Radius).map (fun j => (X, Y + j)) else []) ++
  circleLoop Radius.toNat 0 Radius (1 - Radius) X Y isFilled

theorem circleLoop_subset (X Y : Int) (p : Int × Int) :
    ∀ (f : Nat) (x y d : Int), p ∈ circleLoop f x y d X Y false →
      p ∈ circleLoop f x y d X Y true := by
  intro f
  induction f with
  | zero =>
    intro x y d h
    exact absurd h (by simp [circleLoop])
  | succ f ih =>
    intro x y d h
    unfold circleLoop at h ⊢
    by_cases hxy : x < y
    · rw [if_pos hxy] at h ⊢
      simp only [List.mem_append] at h ⊢
      rcases h with (h | h) | h
      · exact Or.inl (Or.inl h)
      · exact absurd h (by simp)
      · exact Or.inr (ih _ _ _ h)
    · rw [if_neg hxy] at h
      exact absurd h (by simp)

/-- C7: for every center and radius, every point plotted by the unfilled
circle draw is also plotted by the filled circle draw. -/
theorem C7_circle_unfilled_subset_filled (X Y Radius : Int) (p : Int × Int)
    (h : p ∈ OLED_DrawCircle_plots X Y Radius false) :
    p ∈ OLED_DrawCircle_plots X Y Radius true := by
  unfold OLED_DrawCircle_plots at h ⊢
  simp only [List.mem_append] at h ⊢
  rcases h with (h | h) | h
  · exact Or.inl (Or.inl h)
  · exact absurd h (by simp)
  · exact Or.inr (circleLoop_subset X Y p _ _ _ _ h)

/-- Witness for C7 at the circle of radius 5 centered at (20, 20): the
boundary point (25, 20) plotted unfilled is also plotted filled. -/
theorem C7_circle_unfilled_subset_filled_witness :
    (25, 20) ∈ OLED_DrawCircle_plots 20 20 5 true :=
  C7_circle_unfilled_subset_filled 20 20 5 (25, 20) (by decide)

/-- The driver state relevant to the asynchronous DMA transfer (OLED.c):
the busy and completion flags, the page cursor current_dma_page, the
snapshot current_dma_buffer, the coordinator state active_buffer /
display_buffer, and which array the pointers OLED_GRAM / OLED_DISPLAY_GRAM
reference.  Buffers are encoded as Bool: false = BUFFER_A (OLED_GRAM1),
true = BUFFER_B (OLED_GRAM2). -/
structure AsyncState where
  busy : Bool
  complete : Bool
  page : Nat
  dmaBuffer : Bool
  activeBuffer : Bool
  displayBuffer : Bool
  gramPtr : Bool
  displayGramPtr : Bool
deriving DecidableEq

/-- Transport-level events emitted by the transfer machinery: the start of a
DMA page transfer of OLED_COLUMN_COUNT bytes from the given buffer
(OLED_StartDMATransferPage), and a buffer-swap commit, i.e. an assignment of
the display-buffer pointer OLED_DISPLAY_GRAM.  The C code performs such an
assignment in two places: at the start of OLED_UpdateAsync (OLED.c lines
587 and 594) and in the interrupt handler after the last page (OLED.c line
319); both are tagged. -/
inductive XferEvent where
  | pageBegin (page : Nat) (buffer : Bool) (len : Nat)
  | commit (buffer : Bool)
deriving DecidableEq

/-- OLED_StartDMATransferPage (OLED.c lines 361-420) on the success path: set
the page address, clear OLED_DMA_TransferComplete, start the 128-byte DMA
block from the selected buffer page, and report success.  Bus timeouts are
outside this ideal-transport model. -/
def OLED_StartDMATransferPage (page : Nat) (buf : Bool) (s : AsyncState) :
    AsyncState × List XferEvent :=
  ({ s with complete := false }, [XferEvent.pageBegin page buf OLED_COLUMN_COUNT])

/-- OLED_UpdateAsync (OLED.c lines 573-614): reject with 0 when busy;
otherwise set busy, snapshot current_dma_buffer := active_buffer, set
display_buffer := active_buffer, flip active_buffer and the OLED_GRAM
pointer, point OLED_DISPLAY_GRAM at the snapshotted buffer (lines 587/594;
this display-pointer assignment is a buffer-swap commit and is tagged as a
commit event, before any completion signal has arrived), reset the page
cursor and start page 0, returning 1. -/
def OLED_UpdateAsync (s : AsyncState) : AsyncState × List XferEvent × Nat :=
  if s.busy then (s, [], 0)
  else
    let s1 : AsyncState :=
      { s with
        busy := true
        dmaBuffer := s.activeBuffer
        displayBuffer := s.activeBuffer
        activeBuffer := !s.activeBuffer
        gramPtr := !s.activeBuffer
        displayGramPtr := s.activeBuffer
        page := 0 }
    let r := OLED_StartDMATransferPage 0 s1.dmaBuffer s1
    (r.1, XferEvent.commit s.activeBuffer :: r.2, 1)

/-- OLED_DMA_IRQHandler (OLED.c lines 284-323) on a transfer-complete
notification: set the completion flag, advance current_dma_page; if it is
still below OLED_PAGE_COUNT, immediately begin the next page, otherwise
clear busy and commit the buffer swap by pointing OLED_DISPLAY_GRAM at the
snapshotted buffer. -/
def OLED_DMA_IRQHandler (s : AsyncState) : AsyncState × List XferEvent :=
  let s1 : AsyncState := { s with complete := true, page := s.page + 1 }
  if s1.page < OLED_PAGE_COUNT then
    OLED_StartDMATransferPage s1.page s1.dmaBuffer s1
  else
    ({ s1 with busy := false, displayGramPtr := s1.dmaBuffer },
      [XferEvent.commit s1.dmaBuffer])

/-- Deliver n transfer-complete interrupts in sequence, concatenating the
emitted transport events. -/
def runIRQs : Nat → AsyncState → AsyncState × List XferEvent
  | 0, s => (s, [])
  | n + 1, s =>
    let r1 := OLED_DMA_IRQHandler s
    let r2 := runIRQs n r1.1
    (r2.1, r1.2 ++ r2.2)

/-- A full asynchronous session: one OLED_UpdateAsync call followed by n
transfer-complete interrupts. -/
def asyncRun (s : AsyncState) (n : Nat) : AsyncState × List XferEvent × Nat :=
  let r := OLED_UpdateAsync s
  let r2 := runIRQs n r.1
  (r2.1, r.2.1 ++ r2.2, r.2.2)

def isPageBegin : XferEvent → Bool
  | XferEvent.pageBegin _ _ _ => true
  | XferEvent.commit _ => false

def isCommit : XferEvent → Bool
  | XferEvent.pageBegin _ _ _ => false
  | XferEvent.commit _ => true

/-- C1 counterexample: from the concrete reset state, a full transfer records
two display-pointer assignments to the snapshotted buffer, not one, and one of
them has already happened before any completion signal (after zero interrupts
the commit list is nonempty and the display pointer already designates the
snapshotted buffer A); so the commit neither occurs exactly once nor only
after the 8th page's completion. -/
theorem C1_async_commit_counterexample :
    ((asyncRun (AsyncState.mk false false 0 false false false false false) 8).2.1.filter
        isCommit).length = 2 ∧
    ((asyncRun (AsyncState.mk false false 0 false false false false false) 0).2.1.filter
        isCommit ≠ []) ∧
    ((asyncRun (AsyncState.mk false false 0 false false false false false) 0).1.displayGramPtr
        = false) := by
  refine ⟨rfl, ?_, rfl⟩
  decide

set_option maxHeartbeats 2000000 in
/-- C1 amended: a full asynchronous frame transfer started from any idle state
issues exactly 8 page-begin sequences (pages 0..7, 128 bytes each, all from
the snapshotted buffer) and clears busy only after the 8th page's completion
signal; but the display-buffer pointer is updated to the snapshotted buffer
twice, not once: immediately inside OLED_UpdateAsync, before any completion
signal, and again with the same value in the interrupt handler after the 8th
completion (which is the final event). -/
theorem C1_async_full_transfer (s : AsyncState) (h : s.busy = false) :
    (asyncRun s 8).2.2 = 1 ∧
    ((asyncRun s 8).2.1.filter isPageBegin
      = (List.range 8).map
          (fun p => XferEvent.pageBegin p s.activeBuffer OLED_COLUMN_COUNT)) ∧
    ((asyncRun s 8).2.1.filter isCommit
      = [XferEvent.commit s.activeBuffer, XferEvent.commit s.activeBuffer]) ∧
    ((asyncRun s 8).2.1.getLast? = some (XferEvent.commit s.activeBuffer)) ∧
    ((asyncRun s 8).1.busy = false) ∧
    (∀ k, k < 8 →
      ((asyncRun s k).2.1.filter isCommit = [XferEvent.commit s.activeBuffer]) ∧
      (asyncRun s k).1.busy = true) := by
  obtain ⟨b, c, p, db, ab, disb, gp, dgp⟩ := s
  simp only at h
  subst h
  cases ab <;>
    refine ⟨rfl, rfl, rfl, rfl, rfl, ?_⟩ <;>
    (intro k hk; interval_cases k <;> exact ⟨rfl, rfl⟩)

/-- Witness for C1 amended from the concrete reset state (all flags clear,
both pointers on buffer A): two commits over the full transfer, and exactly
the early one after only 3 completion signals, with the session still busy. -/
theorem C1_async_full_transfer_witness :
    ((asyncRun (AsyncState.mk false false 0 false false false false false) 8).2.1.filter
      isCommit = [XferEvent.commit false, XferEvent.commit false]) ∧
    ((asyncRun (AsyncState.mk false false 0 false false false false false) 3).2.1.filter
      isCommit = [XferEvent.commit false]) := by
  have h := C1_async_full_transfer
    (AsyncState.mk false false 0 false false false false false) rfl
  exact ⟨h.2.2.1, (h.2.2.2.2.2 3 (by norm_num)).1⟩

/-- C2: calling OLED_UpdateAsync while a session is active (busy set) returns
the busy indication 0, emits no transport activity, and leaves the entire
state - page cursor, buffer snapshot, active/display assignment and both
pointers - unchanged. -/
theorem C2_async_busy_rejected (s : AsyncState) (h : s.busy = true) :
    OLED_UpdateAsync s = (s, [], 0) := by
  unfold OLED_UpdateAsync
  rw [h]
  simp

/-- Witness for C2 at a concrete mid-transfer state (busy, page 3). -/
theorem C2_async_busy_rejected_witness :
    OLED_UpdateAsync (AsyncState.mk true false 3 false true false true false)
      = (AsyncState.mk true false 3 false true false true false, [], 0) :=
  C2_async_busy_rejected _ rfl

/-- Transport-level events of OLED_UpdateArea: the page/column addressing
command sequence (OLED_Set_Pos, whose column argument is an unsigned char,
i.e. the int16_t column reduced mod 256) and the transmission of a block of
len bytes that the DMA reads starting at column colStart of the given page
of OLED_DISPLAY_GRAM (fromDisplay = true in double-buffer mode). -/
inductive AreaEvent where
  | setPos (col : Nat) (page : Nat)
  | dataBlock (page : Nat) (colStart : Int) (len : Nat) (fromDisplay : Bool)
deriving DecidableEq

/-- The uint8_t page loop values start, start + 1, ..., end (inclusive);
empty when start > end. -/
def pageList (s e : Nat) : List Nat := (List.range (e + 1 - s)).map (fun i => s + i)

/-- OLED_UpdateArea (OLED.c lines 638-756), double-buffered DMA configuration,
as the list of transport events it issues.  The guard rejects
x1 >= 128, y1 >= 64, x2 < 0, y2 < 0 and inverted rectangles; negative x1/y1
pass it.  start_page and end_page are the C int16_t divisions y1/8 and y2/8
(truncating, Int.tdiv) converted to uint8_t (reduced mod 2^8, which is % on
Int), and data_len is x2 - x1 + 1 converted to uint16_t.  Each page transfer
addresses (x1, page) and sends data_len bytes read from column x1 of that
page of the display buffer. -/
def OLED_UpdateArea (x1 y1 x2 y2 : Int) : List AreaEvent :=
  if 128 ≤ x1 ∨ 64 ≤ y1 ∨ x2 < 0 ∨ y2 < 0 ∨ x2 < x1 ∨ y2 < y1 then []
  else
    let start_page : Nat := ((Int.tdiv y1 8) % 256).toNat
    let end_page : Nat := ((Int.tdiv y2 8) % 256).toNat
    let data_len : Nat := ((x2 - x1 + 1) % 65536).toNat
    (pageList start_page end_page).flatMap (fun page =>
      [AreaEvent.setPos ((x1 % 256).toNat) page,
       AreaEvent.dataBlock page x1 data_len true])

theorem tdiv_cast8 (m : Nat) : Int.tdiv (m : Int) 8 = ((m / 8 : Nat) : Int) := rfl

/-- C4 counterexample: the rectangle (-1, 0)-(5, 5) is not a valid on-screen
rectangle, yet the call is not a no-op: it issues a page-addressing command
with the column byte 255 (the int16_t -1 truncated to unsigned char) and a
7-byte data block whose source span starts at column -1 of the display
buffer. -/
theorem C4_area_invalid_counterexample :
    OLED_UpdateArea (-1) 0 5 5
      = [AreaEvent.setPos 255 0, AreaEvent.dataBlock 0 (-1) 7 true] ∧
    OLED_UpdateArea (-1) 0 5 5 ≠ [] := by
  constructor
  · decide
  · decide

/-- C4 amended: for every rectangle lying fully on screen the area update
transmits exactly the pages y1/8 .. y2/8 and, within each, exactly the
data_len = x2 - x1 + 1 bytes of columns x1..x2 read from the display buffer;
every rectangle rejected by the guard - which includes every rectangle fully
outside the screen and every empty/inverted one - issues no transport calls;
(a partially off-screen rectangle with x1 < 0 or y1 < 0 passes the guard and
does issue transport calls, as the counterexample shows). -/
theorem C4_area_update_amended (x1 y1 x2 y2 : Int) :
    ((0 ≤ x1 ∧ x1 ≤ x2 ∧ x2 < 128 ∧ 0 ≤ y1 ∧ y1 ≤ y2 ∧ y2 < 64) →
      OLED_UpdateArea x1 y1 x2 y2
        = (pageList (y1.toNat / 8) (y2.toNat / 8)).flatMap (fun page =>
            [AreaEvent.setPos x1.toNat page,
             AreaEvent.dataBlock page x1 (x2 - x1 + 1).toNat true])) ∧
    ((128 ≤ x1 ∨ 64 ≤ y1 ∨ x2 < 0 ∨ y2 < 0 ∨ x2 < x1 ∨ y2 < y1) →
      OLED_UpdateArea x1 y1 x2 y2 = []) := by
  constructor
  · rintro ⟨ha, hb, hc, hd, he, hf⟩
    obtain ⟨a, rfl⟩ : ∃ a : Nat, x1 = (a : Int) :=
      ⟨x1.toNat, (Int.toNat_of_nonneg ha).symm⟩
    obtain ⟨c, rfl⟩ : ∃ c : Nat, x2 = (c : Int) :=
      ⟨x2.toNat, (Int.toNat_of_nonneg (le_trans ha hb)).symm⟩
    obtain ⟨b, rfl⟩ : ∃ b : Nat, y1 = (b : Int) :=
      ⟨y1.toNat, (Int.toNat_of_nonneg hd).symm⟩
    obtain ⟨d, rfl⟩ : ∃ d : Nat, y2 = (d : Int) :=
      ⟨y2.toNat, (Int.toNat_of_nonneg (le_trans hd he)).symm⟩
    have hsp : ((Int.tdiv (b : Int) 8) % 256).toNat = ((b : Int)).toNat / 8 := by
      rw [tdiv_cast8]; omega
    have hep : ((Int.tdiv (d : Int) 8) % 256).toNat = ((d : Int)).toNat / 8 := by
      rw [tdiv_cast8]; omega
    have hdl : (((c : Int) - (a : Int) + 1) % 65536).toNat
        = ((c : Int) - (a : Int) + 1).toNat := by omega
    have hcol : (((a : Int)) % 256).toNat = ((a : Int)).toNat := by omega
    simp only [OLED_UpdateArea,
      if_neg (show ¬(128 ≤ (a : Int) ∨ 64 ≤ (b : Int) ∨ (c : Int) < 0 ∨ (d : Int) < 0 ∨
        (c : Int) < (a : Int) ∨ (d : Int) < (b : Int)) by omega)]
    rw [hsp, hep, hdl, hcol]
  · intro h
    simp only [OLED_UpdateArea, if_pos h]

/-- Witness for C4 amended at the on-screen rectangle (10, 12)-(20, 30) (pages
1..3, 11 bytes per page) and the fully off-screen rectangle (130, 0)-(140, 5)
(no transport calls). -/
theorem C4_area_update_amended_witness :
    OLED_UpdateArea 10 12 20 30
      = (pageList 1 3).flatMap (fun page =>
          [AreaEvent.setPos 10 page, AreaEvent.dataBlock page 10 11 true]) ∧
    OLED_UpdateArea 130 0 140 5 = [] := by
  constructor
  · exact (C4_area_update_amended 10 12 20 30).1 (by norm_num)
  · exact (C4_area_update_amended 130 0 140 5).2 (by norm_num)

/-- One call to OLED_DrawASCIIFast recorded during string rendering: the
character byte and the cursor position it was drawn at. -/
structure RenderedGlyph where
  c : Nat
  x : Int
  y : Int
deriving DecidableEq

/-- The pure-ASCII fast path loop of OLED_Printf (OLED.c lines 1589-1612) over
the formatted byte string: a formal-feed 10 moves the cursor to the start
column of the next text line, 13 returns it to the start column, and every
other byte is passed to OLED_DrawASCIIFast at the current cursor and then
advances the cursor by charWidth.  Returns the rendered glyph calls in order
together with the final cursor. -/
def printfFastLoop (X0 : Int) (lineHeight charWidth : Nat) :
    List Nat → Int → Int → List RenderedGlyph × Int × Int
  | [], cx, cy => ([], cx, cy)
  | ch :: rest, cx, cy =>
    if ch = 10 then printfFastLoop X0 lineHeight charWidth rest X0 (cy + lineHeight)
    else if ch = 13 then printfFastLoop X0 lineHeight charWidth rest X0 cy
    else
      let r := printfFastLoop X0 lineHeight charWidth rest (cx + charWidth) cy
      (RenderedGlyph.mk ch cx cy :: r.1, r.2)

/-- OLED_IsPureASCII (OLED.c lines 1469-1477): no byte has the top bit set. -/
def OLED_IsPureASCII (s : List Nat) : Bool := s.all (fun ch => ch < 128)

/-- The guard and fast path of OLED_Printf (OLED.c lines 1565-1613) on the
formatted byte string (the vsnprintf expansion is taken as the input):
OLED_CHECK_COORDINATES on (X, Y), the font-size check, the precomputed
lineHeight and charWidth, and the pure-ASCII fast path.  The multi-byte
standard path is not modelled (none is taken for pure-ASCII input). -/
def OLED_Printf_fastPath (X Y : Int) (FontSize : Nat) (s : List Nat) :
    Option (List RenderedGlyph × Int × Int) :=
  if coordsRejected X Y then none
  else if FontSize ≠ 8 ∧ FontSize ≠ 16 then none
  else
    let lineHeight := if FontSize = 16 then 16 else 8
    let charWidth := if lineHeight = 16 then 8 else 6
    if OLED_IsPureASCII s then some (printfFastLoop X lineHeight charWidth s X Y)
    else none

/-- The glyph sequence demanded by the fixed-pitch cursor rule: each character
drawn at the current cursor, the cursor advancing by charWidth. -/
def expectedGlyphs : List Nat → Int → Int → Nat → List RenderedGlyph
  | [], _, _, _ => []
  | ch :: rest, cx, cy, cw => RenderedGlyph.mk ch cx cy :: expectedGlyphs rest (cx + cw) cy cw

theorem printfFastLoop_glyph_chars (X0 : Int) (lh cw : Nat) (s : List Nat) :
    ∀ cx cy, ((printfFastLoop X0 lh cw s cx cy).1.map RenderedGlyph.c)
      = s.filter (fun ch => decide (ch ≠ 10 ∧ ch ≠ 13)) := by
  induction s with
  | nil => intro cx cy; rfl
  | cons ch rest ih =>
    intro cx cy
    by_cases h10 : ch = 10
    · subst h10
      simp [printfFastLoop, ih]
    · by_cases h13 : ch = 13
      · subst h13
        simp [printfFastLoop, ih]
      · simp [printfFastLoop, h10, h13, ih]

theorem printfFastLoop_final_y (X0 : Int) (lh cw : Nat) (s : List Nat) :
    ∀ cx cy, (printfFastLoop X0 lh cw s cx cy).2.2
      = cy + (lh * s.count 10 : Nat) := by
  induction s with
  | nil => intro cx cy; simp [printfFastLoop]
  | cons ch rest ih =>
    intro cx cy
    by_cases h10 : ch = 10
    · subst h10
      rw [printfFastLoop, if_pos rfl, ih]
      simp [List.count_cons]
      ring
    · by_cases h13 : ch = 13
      · subst h13
        rw [printfFastLoop, if_neg (by norm_num), if_pos rfl, ih]
        simp [List.count_cons, h10]
      · rw [printfFastLoop, if_neg h10, if_neg h13]
        simp only [ih]
        simp [List.count_cons, h10]

theorem printfFastLoop_no_control (X0 : Int) (lh cw : Nat) (s : List Nat)
    (h : ∀ ch ∈ s, ch ≠ 10 ∧ ch ≠ 13) :
    ∀ cx cy, (printfFastLoop X0 lh cw s cx cy).1 = expectedGlyphs s cx cy cw ∧
      (printfFastLoop X0 lh cw s cx cy).2.1 = cx + (cw * s.length : Nat) ∧
      (printfFastLoop X0 lh cw s cx cy).2.2 = cy := by
  induction s with
  | nil => intro cx cy; refine ⟨rfl, by simp [printfFastLoop], rfl⟩
  | cons ch rest ih =>
    intro cx cy
    obtain ⟨h10, h13⟩ := h ch (by simp)
    have hrest : ∀ ch ∈ rest, ch ≠ 10 ∧ ch ≠ 13 :=
      fun d hd => h d (List.mem_cons_of_mem _ hd)
    obtain ⟨ihg, ihx, ihy⟩ := ih hrest (cx + cw) cy
    rw [printfFastLoop, if_neg h10, if_neg h13]
    refine ⟨?_, ?_, ?_⟩
    · simp only [ihg]
      rfl
    · simp only [ihx]
      push_cast [List.length_cons]
      ring
    · simp only [ihy]

/-- C8: rendering a pure-ASCII formatted string draws every byte other than
10 and 13 as a glyph (in order), never renders 10 or 13 as glyphs, advances
the cursor Y by exactly one font height per 10 in the string, and over a
control-free string advances the cursor X by the fixed pitch - 6 for the
8-tall font and 8 for the 16-tall font - after each rendered character. -/
theorem C8_printf_cursor (X Y : Int) (FontSize : Nat) (s : List Nat)
    (hXY : ¬ coordsRejected X Y)
    (hfs : FontSize = 8 ∨ FontSize = 16)
    (hascii : OLED_IsPureASCII s = true) :
    OLED_Printf_fastPath X Y FontSize s
      = some (printfFastLoop X FontSize (if FontSize = 16 then 8 else 6) s X Y) ∧
    ((printfFastLoop X FontSize (if FontSize = 16 then 8 else 6) s X Y).1.map
        RenderedGlyph.c = s.filter (fun ch => decide (ch ≠ 10 ∧ ch ≠ 13))) ∧
    ((printfFastLoop X FontSize (if FontSize = 16 then 8 else 6) s X Y).2.2
      = Y + (FontSize * s.count 10 : Nat)) ∧
    ((∀ ch ∈ s, ch ≠ 10 ∧ ch ≠ 13) →
      (printfFastLoop X FontSize (if FontSize = 16 then 8 else 6) s X Y).1
          = expectedGlyphs s X Y (if FontSize = 16 then 8 else 6) ∧
        (printfFastLoop X FontSize (if FontSize = 16 then 8 else 6) s X Y).2.1
          = X + ((if FontSize = 16 then 8 else 6) * s.length : Nat)) := by
  refine ⟨?_, printfFastLoop_glyph_chars _ _ _ s X Y,
    printfFastLoop_final_y _ _ _ s X Y, ?_⟩
  · rcases hfs with rfl | rfl <;>
      simp [OLED_Printf_fastPath, hXY, hascii]
  · intro hnc
    obtain ⟨hg, hx, _⟩ := printfFastLoop_no_control X FontSize
      (if FontSize = 16 then 8 else 6) s hnc X Y
    exact ⟨hg, hx⟩

/-- Witness for C8 on the string [72, 105, 10, 33] at the origin with the
6x8 font: the fast path runs and the final Y is one font height down. -/
theorem C8_printf_cursor_witness :
    OLED_Printf_fastPath 0 0 8 [72, 105, 10, 33]
      = some (printfFastLoop 0 8 6 [72, 105, 10, 33] 0 0) ∧
    (printfFastLoop 0 8 6 [72, 105, 10, 33] 0 0).2.2
      = 0 + ((8 * List.count 10 [72, 105, 10, 33] : Nat)) := by
  have h := C8_printf_cursor 0 0 8 [72, 105, 10, 33]
    (by decide) (Or.inl rfl) (by decide)
  exact ⟨h.1, h.2.2.1⟩
